import Mathlib

/-!
Verification development for the paperlessngx-to-sevdesk poller
(`src/main.py`).  The program polls a Paperless-ngx instance for new
documents past an in-memory watermark (`last_downloaded_document_id`),
downloads each new document into a staging directory `workdir/`, and
forwards every staged `*.pdf` file to a sink (email in the logging
variant, a sevdesk upload endpoint in the other variant), deleting the
local file only on confirmed delivery.

The embedding below follows the variant of `main.py` that the claims
cite by line number: `paperlessngx_get` catches `requests.RequestException`
and returns `None` (modelled by `Option`), `paperlessngx_lookup_new_documents`
sorts candidate ids, bootstraps the watermark when it is 0, and otherwise
downloads every sorted candidate id above the watermark, skipping (not
aborting on) failed downloads; `send_workdir_to_sevdesk` and the
structurally identical `sevdesk_upload_workdir` glob `workdir/*.pdf`,
deliver each file and unlink it on success.  Network behaviour is
abstracted as oracles (`PollEnv.listing`, `PollEnv.download`, the
`deliver` predicate), which is exactly the information flow of the code.
-/

namespace PaperlessSevdesk

/-- Bytes of a downloaded document (Python `bytes`, modelled as a list of byte values). -/
abbrev Bytes := List Nat

/-- A staged file: directory, file name and content.  `main.py` writes
`workdir/<id>.pdf` via `Path.write_bytes` and removes files via `os.unlink`. -/
structure FileEntry where
  dir : String
  name : String
  content : Bytes
deriving DecidableEq

/-- The full path of a file, as produced by `glob.glob` and consumed by `os.unlink`. -/
def FileEntry.fullPath (f : FileEntry) : String := f.dir ++ "/" ++ f.name

/-- State of the fetch stage: the module-global `last_downloaded_document_id`
(0 is the "unset" sentinel, as in `last_downloaded_document_id: int = 0`)
together with the contents of the staging directory. -/
structure FetchState where
  watermark : Nat
  workdir : List FileEntry
deriving DecidableEq

/-- External behaviour of the Paperless-ngx source during one poll.
`listing = none` models `paperlessngx_get` returning `None` for the lookup
request (a caught `requests.RequestException`); `listing = some ids` models a
successful response whose JSON `all` field holds `ids`.  `download i` is the
body of a successful `GET /api/documents/i/download/`, or `none` when that
request fails (again a caught exception returning `None`). -/
structure PollEnv where
  listing : Option (List Nat)
  download : Nat → Option Bytes

/-- `Path.write_bytes`: create or overwrite the file `d/n` with content `b`. -/
def writeFile (fs : List FileEntry) (d n : String) (b : Bytes) : List FileEntry :=
  fs.filter (fun f => !(f.dir == d && f.name == n)) ++ [⟨d, n, b⟩]

/-- The download loop of `paperlessngx_lookup_new_documents` (the `for
current_document_id in new_document_ids` loop): skip ids at or below the
watermark; otherwise attempt the download, and on success write
`workdir/<id>.pdf` and advance the watermark.  On failure (`response` is
`None`) the loop body does nothing and iteration continues with the next id.
The second component instruments the run with the list of successfully
downloaded ids, in iteration order. -/
def downloadLoop (dl : Nat → Option Bytes) : List Nat → FetchState → FetchState × List Nat
  | [], s => (s, [])
  | id :: rest, s =>
    if id ≤ s.watermark then
      downloadLoop dl rest s
    else
      match dl id with
      | some content =>
        ((downloadLoop dl rest
            ⟨id, writeFile s.workdir "workdir" (toString id ++ ".pdf") content⟩).1,
         id :: (downloadLoop dl rest
            ⟨id, writeFile s.workdir "workdir" (toString id ++ ".pdf") content⟩).2)
      | none => downloadLoop dl rest s

/-- Python `list[-1]` on a list known to be nonempty, with 0 as the (never
used) default for the empty list: the last element. -/
def lastD : List Nat → Nat
  | [] => 0
  | [a] => a
  | _ :: b :: t => lastD (b :: t)

/-- `paperlessngx_lookup_new_documents`: if the lookup request failed, return
(the URL construction with the optional tag and document-type filters only
shapes the request and is absorbed into the `listing` oracle).  Otherwise
sort the candidate ids (`sorted(data['all'])`); if the watermark is unset
(0), bootstrap it to the last element of the sorted list when nonempty and
return without downloading; otherwise run the download loop.  The second
component is the list of ids downloaded during this poll. -/
def paperlessngx_lookup_new_documents (env : PollEnv) (s : FetchState) :
    FetchState × List Nat :=
  match env.listing with
  | none => (s, [])
  | some raw =>
    let new_document_ids := List.insertionSort (· ≤ ·) raw
    if s.watermark = 0 then
      if new_document_ids.isEmpty then (s, [])
      else ({ s with watermark := lastD new_document_ids }, [])
    else
      downloadLoop env.download new_document_ids s

/-- Iterated polling: the fetch-stage part of the `while True` loop of
`main`, one `PollEnv` per cycle, accumulating the downloaded ids. -/
def runPolls : List PollEnv → FetchState → FetchState × List Nat
  | [], s => (s, [])
  | e :: rest, s =>
    ((runPolls rest (paperlessngx_lookup_new_documents e s).1).1,
     (paperlessngx_lookup_new_documents e s).2 ++
       (runPolls rest (paperlessngx_lookup_new_documents e s).1).2)

/-- Maximum of a list of naturals (0 for the empty list). -/
def listMax (l : List Nat) : Nat := l.foldl max 0

/-- The value the first successful bootstrap sets the watermark to: the
maximum id of the first successful, nonempty listing in the poll sequence
(0 when no such listing occurs, i.e. the tracker is never primed). -/
def bootVal : List PollEnv → Nat
  | [] => 0
  | e :: rest =>
    match e.listing with
    | none => bootVal rest
    | some ids => if ids.isEmpty then bootVal rest else listMax ids

/-- All ids returned by any successful listing are positive (document ids in
Paperless-ngx are ≥ 1; 0 is the watermark's "unset" sentinel). -/
def allListedPositive (envs : List PollEnv) : Bool :=
  envs.all (fun e => (e.listing.getD []).all (fun i => i != 0))

/-! ## Forward stage -/

/-- String suffix test over the character list (same result as
`String.endsWith`). -/
def strEndsWith (s suffix : String) : Bool := List.isSuffixOf suffix.data s.data

/-- String prefix test over the character list (same result as
`String.startsWith`). -/
def strStartsWith (s pre : String) : Bool := List.isPrefixOf pre.data s.data

/-- The `glob.glob("workdir/*.pdf")` pattern test: the file is in the
`workdir` directory and its name ends in `.pdf` (glob's `*` does not match
names starting with a dot). -/
def isPdfMatch (f : FileEntry) : Bool :=
  f.dir == "workdir" && strEndsWith f.name ".pdf" && !(strStartsWith f.name ".")

/-- Paths returned by `glob.glob("workdir/*.pdf")`. -/
def globPdf (fs : List FileEntry) : List String :=
  (fs.filter isPdfMatch).map FileEntry.fullPath

/-- `os.unlink(p)`: remove the file at path `p`. -/
def unlink (fs : List FileEntry) (p : String) : List FileEntry :=
  fs.filter (fun f => f.fullPath != p)

/-- One iteration of the forwarding loop for the file at path `p`: deliver
it to the sink (`send_email_with_attachment` / `sevdesk_upload_file`, both
returning a success boolean) and unlink it on success; on failure only log. -/
def forwardStep (deliver : String → Bool) (fs : List FileEntry) (p : String) :
    List FileEntry :=
  if deliver p then unlink fs p else fs

/-- `send_workdir_to_sevdesk` (and the structurally identical
`sevdesk_upload_workdir`): glob `workdir/*.pdf`, then for each match deliver
and, on success, unlink.  `deliver` abstracts the sink outcome per path.
This version models the common case in which `os.unlink` succeeds. -/
def send_workdir_to_sevdesk (deliver : String → Bool) (fs : List FileEntry) :
    List FileEntry :=
  (globPdf fs).foldl (forwardStep deliver) fs

/-- Result of the forward stage when `os.unlink` may fail: the final
directory contents, and whether an exception escaped the stage
(`os.unlink` is not wrapped in any `try`, so an `OSError` raised there
propagates out of `send_workdir_to_sevdesk` immediately). -/
structure ForwardResult where
  fs : List FileEntry
  uncaught : Bool
deriving DecidableEq

/-- The forwarding loop over the globbed paths with a fallible `os.unlink`
(`unlinkOk p = false` means `os.unlink(p)` raises).  A raise aborts the loop
at once and the exception leaves the stage uncaught. -/
def forwardGo (deliver unlinkOk : String → Bool) :
    List String → List FileEntry → ForwardResult
  | [], fs => ⟨fs, false⟩
  | p :: ps, fs =>
    if deliver p then
      if unlinkOk p then forwardGo deliver unlinkOk ps (unlink fs p)
      else ⟨fs, true⟩
    else forwardGo deliver unlinkOk ps fs

/-- `send_workdir_to_sevdesk` with a fallible `os.unlink`. -/
def send_workdir_fallible (deliver unlinkOk : String → Bool)
    (fs : List FileEntry) : ForwardResult :=
  forwardGo deliver unlinkOk (globPdf fs) fs

/-! ## Configuration and startup -/

/-- The process environment: `os.getenv`. -/
def OSEnv := String → Option String

/-- Python `os.getenv(k) or ""`: the variable's value when set and nonempty,
otherwise the empty string. -/
def getenvOrEmpty (env : OSEnv) (k : String) : String := (env k).getD ""

/-- Python `os.getenv(k) or 0` for the optional filter variables, modelled
as `none` exactly when the Python value is falsy (unset, empty, or the int 0). -/
def getenvOpt (env : OSEnv) (k : String) : Option String :=
  match env k with
  | none => none
  | some v => if v == "" then none else some v

/-- Decimal digits of a character list, accumulated left to right; `none`
when the list is empty or holds a non-digit. -/
def parseNatChars : List Char → Option Nat → Option Nat
  | [], acc => acc
  | c :: cs, acc =>
    if 48 ≤ c.toNat ∧ c.toNat ≤ 57 then
      match acc with
      | some n => parseNatChars cs (some (n * 10 + (c.toNat - 48)))
      | none => parseNatChars cs (some (c.toNat - 48))
    else none

/-- Parse an optionally negated decimal integer literal (the fragment of
Python `int(str)` that the configuration values exercise; Python's
whitespace trimming and underscores are not modelled, no claim uses them). -/
def pyIntParse (s : String) : Option Int :=
  match s.data with
  | '-' :: rest => (parseNatChars rest none).map (fun n => -(n : Int))
  | _ => (parseNatChars s.data none).map (fun n => (n : Int))

/-- Python `int(x)` applied to the result of `os.getenv`: raises `TypeError`
when the variable is unset (`int(None)`), `ValueError` when it is not an
integer literal, and returns the parsed integer otherwise. -/
def pyInt? (v : Option String) : Except String Int :=
  match v with
  | none => Except.error "TypeError"
  | some s =>
    match pyIntParse s with
    | some n => Except.ok n
    | none => Except.error "ValueError"

/-- Python `x or d` on integers: `d` when `x` is 0, else `x`. -/
def pyOrInt (x d : Int) : Int := if x = 0 then d else x

/-- The `Config` dataclass of the variant cited by the claims: all fields of
the constructor call at module load, plus `sevdesk_token`, which that
constructor call never sets and therefore keeps its dataclass default `None`. -/
structure Config where
  paperlessngx_url : String
  paperlessngx_token : String
  paperlessngx_filter_tag_id : Option String
  paperlessngx_filter_document_type_id : Option String
  sevdesk_token : Option String
  from_email : String
  to_email : String
  subject : String
  body : String
  smtp_server : String
  smtp_port : Int
  login : String
  password : String
  run_interval : Int
deriving DecidableEq

/-- `Config.is_valid`: `all(required_fields)`, i.e. every required field is
truthy — nonempty for the strings, nonzero for `smtp_port`, and a nonempty
string for `sevdesk_token` (whose `None` default is falsy). -/
def Config.is_valid (c : Config) : Bool :=
  c.paperlessngx_url != "" && c.paperlessngx_token != "" &&
  (match c.sevdesk_token with | none => false | some t => t != "") &&
  c.from_email != "" && c.to_email != "" && c.smtp_server != "" &&
  c.smtp_port != 0 && c.login != "" && c.password != ""

/-- The module-level `config = Config(...)` construction.  The two `int(...)`
calls are the only fallible expressions; they evaluate in source order
(`smtp_port` before `run_interval`), and an exception there escapes module
load unhandled.  Note `sevdesk_token` is absent from the constructor call. -/
def mkConfig (env : OSEnv) : Except String Config :=
  match pyInt? (env "SMTP_PORT") with
  | Except.error e => Except.error e
  | Except.ok smtpPortRaw =>
    match pyInt? (env "RUN_INTERVAL") with
    | Except.error e => Except.error e
    | Except.ok runIntervalRaw =>
      Except.ok
        { paperlessngx_url := getenvOrEmpty env "PAPERLESSNGX_URL"
          paperlessngx_token := getenvOrEmpty env "PAPERLESSNGX_TOKEN"
          paperlessngx_filter_tag_id := getenvOpt env "PAPERLESSNGX_FILTER_TAG_ID"
          paperlessngx_filter_document_type_id := getenvOpt env "PAPERLESSNGX_FILTER_DOCUMENT_TYPE_ID"
          sevdesk_token := none
          from_email := getenvOrEmpty env "EMAIL_ACCOUNT"
          to_email := "autobox@sevdesk.email"
          subject := "Invoice"
          body := "Invoice"
          smtp_server := getenvOrEmpty env "SMTP_SERVER"
          smtp_port := pyOrInt smtpPortRaw 0
          login := getenvOrEmpty env "LOGIN"
          password := getenvOrEmpty env "PASSWORD"
          run_interval := pyOrInt runIntervalRaw 300 }

/-- How the process start can end: an unhandled exception during module-level
config construction (the interpreter exits nonzero printing a traceback, not
the required-variables message), the `Config invalid` branch of `main`
(prints the required environment variables and calls `exit(1)`), or entry
into the `while True` polling loop. -/
inductive StartupOutcome
  | unhandledError (msg : String)
  | usageExit
  | pollingLoop
deriving DecidableEq

/-- Process startup: build `config` at module load, then `main` checks
`config.is_valid()` and either prints the required variables and exits 1 or
enters the polling loop. -/
def main_startup (env : OSEnv) : StartupOutcome :=
  match mkConfig env with
  | Except.error e => StartupOutcome.unhandledError e
  | Except.ok c => if c.is_valid then StartupOutcome.pollingLoop else StartupOutcome.usageExit

/-- Whether the startup outcome is a process exit with nonzero status
(both an unhandled exception and `exit(1)` are). -/
def exitsNonZero : StartupOutcome → Bool
  | StartupOutcome.pollingLoop => false
  | _ => true

/-- Whether the startup outcome printed the required-variables message
(only the `Config invalid` branch of `main` does). -/
def printsRequiredVars : StartupOutcome → Bool
  | StartupOutcome.usageExit => true
  | _ => false

/-- A finite environment as an `os.getenv` oracle. -/
def envOf (l : List (String × String)) : OSEnv :=
  fun k => (l.find? (fun p => p.1 == k)).map (fun p => p.2)

/-- Whether an `int(...)` evaluation succeeded (no exception raised). -/
def exceptOk : Except String Int → Bool
  | Except.ok _ => true
  | Except.error _ => false

/-! ## Concrete inputs used in counterexamples and witnesses -/

/-- Watermark-10 scenario of claim C1: candidates 11, 12 and 13, where the
download of document 12 fails and every other download succeeds. -/
def envC1 : PollEnv := ⟨some [11, 12, 13], fun i => if i == 12 then none else some [i]⟩

/-- Bootstrap scenario of claims C2 and C3: a first listing with ids 5, 9
and 12, then a listing with ids 12 and 15; all downloads succeed. -/
def envsC3 : List PollEnv :=
  [⟨some [5, 9, 12], fun i => some [i]⟩, ⟨some [12, 15], fun i => some [i]⟩]

/-- A staging directory holding a single staged pdf. -/
def fsC7 : List FileEntry := [⟨"workdir", "1.pdf", [1]⟩]

/-- An environment with every required variable set except SMTP_PORT. -/
def envC8 : OSEnv := envOf [("PAPERLESSNGX_URL", "http://paperless"),
  ("PAPERLESSNGX_TOKEN", "tok"), ("SEVDESK_TOKEN", "sd"),
  ("EMAIL_ACCOUNT", "me@example.com"), ("SMTP_SERVER", "smtp.example.com"),
  ("LOGIN", "user"), ("PASSWORD", "pw"), ("RUN_INTERVAL", "60")]

/-- An environment with every required variable set except RUN_INTERVAL. -/
def envC9 : OSEnv := envOf [("PAPERLESSNGX_URL", "http://paperless"),
  ("PAPERLESSNGX_TOKEN", "tok"), ("SEVDESK_TOKEN", "sd"),
  ("EMAIL_ACCOUNT", "me@example.com"), ("SMTP_SERVER", "smtp.example.com"),
  ("SMTP_PORT", "25"), ("LOGIN", "user"), ("PASSWORD", "pw")]

/-! ## Helper lemmas about maxima, the sorted listing and the loops -/

theorem le_foldl_max (l : List Nat) (a : Nat) : a ≤ l.foldl max a := by
  induction l generalizing a with
  | nil => exact Nat.le_refl a
  | cons x xs ih =>
    rw [List.foldl_cons]
    exact Nat.le_trans (Nat.le_max_left a x) (ih (max a x))

theorem foldl_max_eq_max (l : List Nat) (b : Nat) : l.foldl max b = max b (listMax l) := by
  induction l generalizing b with
  | nil => simp [listMax]
  | cons x xs ih =>
    have hlm : listMax (x :: xs) = max x (listMax xs) := by
      show (x :: xs).foldl max 0 = max x (listMax xs)
      rw [List.foldl_cons, Nat.zero_max, ih x]
    rw [List.foldl_cons, ih (max b x), hlm, Nat.max_assoc]

theorem listMax_cons (y : Nat) (ys : List Nat) : listMax (y :: ys) = max y (listMax ys) := by
  show (y :: ys).foldl max 0 = max y (listMax ys)
  rw [List.foldl_cons, Nat.zero_max, foldl_max_eq_max]

theorem le_listMax {x : Nat} {l : List Nat} (h : x ∈ l) : x ≤ listMax l := by
  induction l with
  | nil => cases h
  | cons y ys ih =>
    rw [listMax_cons]
    rcases List.mem_cons.mp h with rfl | h'
    · exact Nat.le_max_left _ _
    · exact Nat.le_trans (ih h') (Nat.le_max_right _ _)

theorem listMax_mem {l : List Nat} (h : l ≠ []) : listMax l ∈ l := by
  induction l with
  | nil => exact absurd rfl h
  | cons y ys ih =>
    rw [listMax_cons]
    rcases eq_or_ne ys [] with rfl | hne
    · simp [listMax]
    · rcases max_choice y (listMax ys) with hm | hm
      · rw [hm]; exact List.mem_cons_self y ys
      · rw [hm]; exact List.mem_cons_of_mem y (ih hne)

theorem lastD_mem {l : List Nat} (h : l ≠ []) : lastD l ∈ l := by
  induction l with
  | nil => exact absurd rfl h
  | cons a t ih =>
    cases t with
    | nil => simp [lastD]
    | cons b t' =>
      have hrw : lastD (a :: b :: t') = lastD (b :: t') := rfl
      rw [hrw]
      exact List.mem_cons_of_mem a (ih (by simp))

theorem sorted_le_lastD {l : List Nat} (hs : List.Sorted (· ≤ ·) l) :
    ∀ x ∈ l, x ≤ lastD l := by
  induction l with
  | nil => intro x hx; cases hx
  | cons a t ih =>
    intro x hx
    rcases List.mem_cons.mp hx with rfl | hx'
    · cases t with
      | nil => simp [lastD]
      | cons b t' =>
        have hrw : lastD (x :: b :: t') = lastD (b :: t') := rfl
        rw [hrw]
        exact (List.sorted_cons.mp hs).1 _ (lastD_mem (l := b :: t') (by simp))
    · cases t with
      | nil => cases hx'
      | cons b t' =>
        have hrw : lastD (a :: b :: t') = lastD (b :: t') := rfl
        rw [hrw]
        exact ih (List.sorted_cons.mp hs).2 x hx'

theorem sort_eq_nil_iff (l : List Nat) :
    List.insertionSort (· ≤ ·) l = [] ↔ l = [] := by
  constructor
  · intro h
    have hperm := List.perm_insertionSort (· ≤ ·) l
    rw [h] at hperm
    exact hperm.nil_eq.symm
  · intro h; subst h; rfl

theorem lastD_sort_eq_listMax (l : List Nat) :
    lastD (List.insertionSort (· ≤ ·) l) = listMax l := by
  rcases eq_or_ne l [] with rfl | hne
  · rfl
  · have hperm := List.perm_insertionSort (· ≤ ·) l
    have hsorted := List.sorted_insertionSort (· ≤ ·) l
    have hne' : List.insertionSort (· ≤ ·) l ≠ [] := by
      intro h; exact hne ((sort_eq_nil_iff l).mp h)
    apply Nat.le_antisymm
    · exact le_listMax (hperm.mem_iff.mp (lastD_mem hne'))
    · exact sorted_le_lastD hsorted _ (hperm.mem_iff.mpr (listMax_mem hne))

theorem sort_pairwise_lt {raw : List Nat} (hnd : raw.Nodup) :
    (List.insertionSort (· ≤ ·) raw).Pairwise (· < ·) := by
  have hs : (List.insertionSort (· ≤ ·) raw).Pairwise (· ≤ ·) :=
    List.sorted_insertionSort (· ≤ ·) raw
  have hnd' : (List.insertionSort (· ≤ ·) raw).Nodup :=
    hnd.perm (List.perm_insertionSort (· ≤ ·) raw).symm
  exact (hs.and hnd').imp (fun h => lt_of_le_of_ne h.1 h.2)

theorem downloadLoop_spec (dl : Nat → Option Bytes) :
    ∀ (ids : List Nat) (s : FetchState),
      (downloadLoop dl ids s).1.watermark = (downloadLoop dl ids s).2.foldl max s.watermark ∧
      ∀ d ∈ (downloadLoop dl ids s).2, s.watermark < d := by
  intro ids
  induction ids with
  | nil => intro s; simp [downloadLoop]
  | cons id rest ih =>
    intro s
    by_cases h : id ≤ s.watermark
    · simpa [downloadLoop, h] using ih s
    · have hw : s.watermark < id := Nat.lt_of_not_le h
      cases hdl : dl id with
      | none => simpa [downloadLoop, h, hdl] using ih s
      | some content =>
        have ihs := ih ⟨id, writeFile s.workdir "workdir" (toString id ++ ".pdf") content⟩
        simp only [downloadLoop, if_neg h, hdl]
        constructor
        · rw [List.foldl_cons, Nat.max_eq_right (Nat.le_of_lt hw)]
          exact ihs.1
        · intro d hd
          rcases List.mem_cons.mp hd with rfl | hd'
          · exact hw
          · exact Nat.lt_trans hw (ihs.2 d hd')

theorem downloadLoop_filter (dl : Nat → Option Bytes) :
    ∀ (ids : List Nat), ids.Pairwise (· < ·) → ∀ (s : FetchState),
      (downloadLoop dl ids s).2 =
        ids.filter (fun i => decide (s.watermark < i) && (dl i).isSome) := by
  intro ids
  induction ids with
  | nil => intro _ s; rfl
  | cons id rest ih =>
    intro hp s
    have hhead := (List.pairwise_cons.mp hp).1
    have hrest := (List.pairwise_cons.mp hp).2
    by_cases h : id ≤ s.watermark
    · have hnd : decide (s.watermark < id) = false := by
        simp [Nat.not_lt.mpr h]
      rw [List.filter_cons]
      simp only [hnd, Bool.false_and, if_neg (by simp : ¬ (false = true))]
      simpa [downloadLoop, h] using ih hrest s
    · have hw : s.watermark < id := Nat.lt_of_not_le h
      cases hdl : dl id with
      | none =>
        rw [List.filter_cons]
        simp only [hdl, Option.isSome_none, Bool.and_false,
          if_neg (by simp : ¬ (false = true))]
        simpa [downloadLoop, h, hdl] using ih hrest s
      | some content =>
        have heq' : (downloadLoop dl rest
            ⟨id, writeFile s.workdir "workdir" (toString id ++ ".pdf") content⟩).2 =
            rest.filter (fun i => decide (id < i) && (dl i).isSome) :=
          ih hrest ⟨id, writeFile s.workdir "workdir" (toString id ++ ".pdf") content⟩
        have hcongr :
            rest.filter (fun i => decide (id < i) && (dl i).isSome) =
            rest.filter (fun i => decide (s.watermark < i) && (dl i).isSome) := by
          apply List.filter_congr
          intro x hx
          have h1 : id < x := hhead x hx
          have h2 : s.watermark < x := Nat.lt_trans hw h1
          simp [h1, h2]
        have hcond : (decide (s.watermark < id) && (dl id).isSome) = true := by
          simp [hw, hdl]
        simp only [downloadLoop, if_neg h, hdl]
        rw [List.filter_cons, hcond, if_pos rfl, heq', hcongr]

theorem lookup_spec (env : PollEnv) (s : FetchState) :
    s.watermark ≤ (paperlessngx_lookup_new_documents env s).1.watermark ∧
    ∀ d ∈ (paperlessngx_lookup_new_documents env s).2, s.watermark < d := by
  cases hl : env.listing with
  | none => simp [paperlessngx_lookup_new_documents, hl]
  | some raw =>
    by_cases h0 : s.watermark = 0
    · by_cases he : (List.insertionSort (· ≤ ·) raw).isEmpty
      · simp [paperlessngx_lookup_new_documents, hl, h0, he]
      · simp [paperlessngx_lookup_new_documents, hl, h0, he, Nat.le_of_eq h0.symm,
          Nat.zero_le, h0]
    · have hdlsp := downloadLoop_spec env.download (List.insertionSort (· ≤ ·) raw) s
      constructor
      · simp only [paperlessngx_lookup_new_documents, hl, if_neg h0]
        exact hdlsp.1 ▸ le_foldl_max _ _
      · simp only [paperlessngx_lookup_new_documents, hl, if_neg h0]
        exact hdlsp.2

theorem lookup_primed (env : PollEnv) (s : FetchState) (h0 : s.watermark ≠ 0) :
    (paperlessngx_lookup_new_documents env s).1.watermark =
      (paperlessngx_lookup_new_documents env s).2.foldl max s.watermark := by
  cases hl : env.listing with
  | none => simp [paperlessngx_lookup_new_documents, hl]
  | some raw =>
    simp only [paperlessngx_lookup_new_documents, hl, if_neg h0]
    exact (downloadLoop_spec env.download _ s).1

theorem runPolls_spec (envs : List PollEnv) :
    ∀ s : FetchState,
      s.watermark ≤ (runPolls envs s).1.watermark ∧
      (s.watermark ≠ 0 →
        (runPolls envs s).1.watermark = (runPolls envs s).2.foldl max s.watermark ∧
        ∀ d ∈ (runPolls envs s).2, s.watermark < d) := by
  induction envs with
  | nil => intro s; simp [runPolls]
  | cons e rest ih =>
    intro s
    have hls := lookup_spec e s
    have hih := ih (paperlessngx_lookup_new_documents e s).1
    constructor
    · exact Nat.le_trans hls.1 hih.1
    · intro h0
      have h1ne : (paperlessngx_lookup_new_documents e s).1.watermark ≠ 0 := by
        intro hz
        exact h0 (Nat.le_antisymm (hz ▸ hls.1) (Nat.zero_le _))
      obtain ⟨h2, hgt2⟩ := hih.2 h1ne
      have h1 := lookup_primed e s h0
      constructor
      · show (runPolls rest (paperlessngx_lookup_new_documents e s).1).1.watermark =
          ((paperlessngx_lookup_new_documents e s).2 ++
            (runPolls rest (paperlessngx_lookup_new_documents e s).1).2).foldl max s.watermark
        rw [List.foldl_append, ← h1, h2]
      · intro d hd
        rcases List.mem_append.mp hd with hd1 | hd2
        · exact hls.2 d hd1
        · exact Nat.lt_of_le_of_lt hls.1 (hgt2 d hd2)

theorem allListedPositive_cons {e : PollEnv} {rest : List PollEnv}
    (h : allListedPositive (e :: rest) = true) :
    (e.listing.getD []).all (fun i => i != 0) = true ∧ allListedPositive rest = true := by
  rw [allListedPositive, List.all_cons, Bool.and_eq_true] at h
  exact ⟨h.1, h.2⟩

theorem runPolls_unset (envs : List PollEnv) :
    allListedPositive envs = true → ∀ s : FetchState, s.watermark = 0 →
      (runPolls envs s).1.watermark = (runPolls envs s).2.foldl max (bootVal envs) ∧
      ∀ d ∈ (runPolls envs s).2, bootVal envs < d := by
  induction envs with
  | nil => intro _ s h0; simp [runPolls, bootVal, h0]
  | cons e rest ih =>
    intro hpos s h0
    obtain ⟨hpe, hpr⟩ := allListedPositive_cons hpos
    cases hl : e.listing with
    | none =>
      have hred : paperlessngx_lookup_new_documents e s = (s, []) := by
        simp [paperlessngx_lookup_new_documents, hl]
      have hb : bootVal (e :: rest) = bootVal rest := by simp [bootVal, hl]
      simp only [runPolls, hred, List.nil_append, hb]
      exact ih hpr s h0
    | some raw =>
      by_cases hraw : raw = []
      · subst hraw
        have hred : paperlessngx_lookup_new_documents e s = (s, []) := by
          simp [paperlessngx_lookup_new_documents, hl, h0]
        have hb : bootVal (e :: rest) = bootVal rest := by simp [bootVal, hl]
        simp only [runPolls, hred, List.nil_append, hb]
        exact ih hpr s h0
      · have hsortne : ¬ (List.insertionSort (· ≤ ·) raw).isEmpty := by
          rw [List.isEmpty_eq_true, sort_eq_nil_iff]
          exact hraw
        have hred : paperlessngx_lookup_new_documents e s =
            ({ s with watermark := listMax raw }, []) := by
          simp only [paperlessngx_lookup_new_documents, hl, if_pos h0, if_neg hsortne,
            lastD_sort_eq_listMax]
        have hb : bootVal (e :: rest) = listMax raw := by
          simp [bootVal, hl, hraw]
        have hbpos : listMax raw ≠ 0 := by
          have hmem := listMax_mem hraw
          rw [hl] at hpe
          simp only [Option.getD_some, List.all_eq_true] at hpe
          simpa using hpe _ hmem
        have hrun := (runPolls_spec rest ({ s with watermark := listMax raw })).2 hbpos
        simp only [runPolls, hred, List.nil_append, hb]
        exact ⟨hrun.1, hrun.2⟩

/-! ## Helper lemmas for the forward stage -/

theorem forward_fold_eq_filter (deliver : String → Bool) :
    ∀ (ps : List String) (fs : List FileEntry),
      ps.foldl (forwardStep deliver) fs =
        fs.filter (fun f => !(ps.contains f.fullPath && deliver f.fullPath)) := by
  intro ps
  induction ps with
  | nil =>
    intro fs
    simp [List.filter_eq_self]
  | cons p ps ih =>
    intro fs
    rw [List.foldl_cons]
    by_cases hd : deliver p
    · have hstep : forwardStep deliver fs p = fs.filter (fun f => f.fullPath != p) := by
        simp [forwardStep, hd, unlink]
      rw [hstep, ih, List.filter_filter]
      apply List.filter_congr
      intro f _
      cases hfp : f.fullPath == p
      · have hne : f.fullPath ≠ p := by simpa using hfp
        simp [List.contains_cons, hfp, hne]
      · have heq : f.fullPath = p := eq_of_beq hfp
        simp [List.contains_cons, hfp, heq, hd]
    · have hstep : forwardStep deliver fs p = fs := by
        simp [forwardStep, hd]
      rw [hstep, ih]
      apply List.filter_congr
      intro f _
      cases hfp : f.fullPath == p
      · have hne : f.fullPath ≠ p := by simpa using hfp
        simp [List.contains_cons, hfp, hne]
      · have heq : f.fullPath = p := eq_of_beq hfp
        have hdf : deliver f.fullPath = false := by
          rw [heq]; exact Bool.eq_false_iff.mpr hd
        simp [List.contains_cons, hfp, hdf]

theorem mem_globPdf_iff {fs : List FileEntry} {f : FileEntry}
    (h : (fs.map FileEntry.fullPath).Nodup) (hf : f ∈ fs) :
    f.fullPath ∈ globPdf fs ↔ isPdfMatch f = true := by
  constructor
  · intro hmem
    obtain ⟨g, hg, hgp⟩ := List.mem_map.mp hmem
    have hgfs : g ∈ fs := (List.mem_filter.mp hg).1
    have hgm : isPdfMatch g = true := (List.mem_filter.mp hg).2
    have : g = f := List.inj_on_of_nodup_map h hgfs hf hgp
    exact this ▸ hgm
  · intro hm
    exact List.mem_map.mpr ⟨f, List.mem_filter.mpr ⟨hf, hm⟩, rfl⟩

theorem contains_eq_true_iff_mem {l : List String} {a : String} :
    l.contains a = true ↔ a ∈ l := by
  rw [List.contains_iff_exists_mem_beq]
  constructor
  · rintro ⟨b, hb, hab⟩
    exact (eq_of_beq hab) ▸ hb
  · intro h
    exact ⟨a, h, by simp⟩

theorem send_workdir_eq_filter (deliver : String → Bool) (fs : List FileEntry)
    (h : (fs.map FileEntry.fullPath).Nodup) :
    send_workdir_to_sevdesk deliver fs =
      fs.filter (fun f => !(isPdfMatch f && deliver f.fullPath)) := by
  rw [send_workdir_to_sevdesk, forward_fold_eq_filter]
  apply List.filter_congr
  intro f hf
  have hcm : (globPdf fs).contains f.fullPath = isPdfMatch f := by
    cases hm : isPdfMatch f
    · apply Bool.eq_false_iff.mpr
      intro hc
      have : f.fullPath ∈ globPdf fs := contains_eq_true_iff_mem.mp hc
      have := (mem_globPdf_iff h hf).mp this
      rw [hm] at this
      cases this
    · exact contains_eq_true_iff_mem.mpr ((mem_globPdf_iff h hf).mpr hm)
  rw [hcm]

theorem forwardGo_unlink_failure (deliver unlinkOk : String → Bool) {p : String}
    (hd : deliver p = true) (hu : unlinkOk p = false) :
    ∀ (ps : List String) (fs : List FileEntry), p ∈ ps →
      (forwardGo deliver unlinkOk ps fs).uncaught = true ∧
      ∀ e ∈ fs, e.fullPath = p → e ∈ (forwardGo deliver unlinkOk ps fs).fs := by
  intro ps
  induction ps with
  | nil => intro fs hp; cases hp
  | cons q ps ih =>
    intro fs hp
    by_cases hdq : deliver q
    · by_cases huq : unlinkOk q
      · have hqp : q ≠ p := by
          intro hqp; rw [hqp] at huq; rw [hu] at huq; cases huq
        have hp' : p ∈ ps := by
          rcases List.mem_cons.mp hp with rfl | hp'
          · exact absurd rfl hqp
          · exact hp'
        have hred : forwardGo deliver unlinkOk (q :: ps) fs =
            forwardGo deliver unlinkOk ps (unlink fs q) := by
          simp [forwardGo, hdq, huq]
        rw [hred]
        obtain ⟨h1, h2⟩ := ih (unlink fs q) hp'
        refine ⟨h1, fun e he hep => ?_⟩
        have hmem : e ∈ unlink fs q := by
          rw [unlink]
          apply List.mem_filter.mpr
          refine ⟨he, ?_⟩
          simp only [bne_iff_ne, ne_eq]
          rw [hep]
          exact fun hcontra => hqp hcontra.symm
        exact h2 e hmem hep
      · have hred : forwardGo deliver unlinkOk (q :: ps) fs = ⟨fs, true⟩ := by
          simp [forwardGo, hdq, huq]
        rw [hred]
        exact ⟨rfl, fun e he _ => he⟩
    · have hqp : q ≠ p := by
        intro hqp; rw [hqp, hd] at hdq; exact hdq rfl
      have hp' : p ∈ ps := by
        rcases List.mem_cons.mp hp with rfl | hp'
        · exact absurd rfl hqp
        · exact hp'
      have hred : forwardGo deliver unlinkOk (q :: ps) fs =
          forwardGo deliver unlinkOk ps fs := by
        simp [forwardGo, hdq]
      rw [hred]
      exact ih fs hp'

/-! ## Claim theorems -/

/-- Claim C1, counterexample to the claim as stated: with watermark 10,
candidates 11, 12, 13 and a download failure at 12, the fetch stage does not
stop after 11 — it also attempts and downloads 13, the staging directory ends
up holding 11.pdf and 13.pdf, and the watermark ends at 13, not 11 (so 12 is
never retried on a later poll). -/
theorem c1_stop_at_failure_counterexample :
    paperlessngx_lookup_new_documents envC1 ⟨10, []⟩ =
      (⟨13, [⟨"workdir", "11.pdf", [11]⟩, ⟨"workdir", "13.pdf", [13]⟩]⟩, [11, 13]) := by
  decide

/-- Claim C1, amended: with the watermark primed, candidates are processed in
ascending (sorted) order, but on a download failure the fetch stage continues
with the next candidate instead of stopping: the downloads of a poll are
exactly the sorted candidates above the watermark whose download succeeds
(later candidates are attempted even after an earlier failure), and the
watermark ends at the running maximum of the successful downloads, so a
failed id below a later success is skipped, not retried. -/
theorem c1_continue_after_failure (env : PollEnv) (s : FetchState) (raw : List Nat)
    (h0 : s.watermark ≠ 0) (hl : env.listing = some raw) (hnd : raw.Nodup) :
    (paperlessngx_lookup_new_documents env s).2 =
      (List.insertionSort (· ≤ ·) raw).filter
        (fun i => decide (s.watermark < i) && (env.download i).isSome) ∧
    (paperlessngx_lookup_new_documents env s).1.watermark =
      (paperlessngx_lookup_new_documents env s).2.foldl max s.watermark := by
  constructor
  · simp only [paperlessngx_lookup_new_documents, hl, if_neg h0]
    exact downloadLoop_filter env.download _ (sort_pairwise_lt hnd) s
  · exact lookup_primed env s h0

/-- Witness for the amended claim C1, at the watermark-10 scenario. -/
theorem c1_continue_after_failure_witness :
    (paperlessngx_lookup_new_documents envC1 ⟨10, []⟩).2 =
      (List.insertionSort (· ≤ ·) [11, 12, 13]).filter
        (fun i => decide (10 < i) && (envC1.download i).isSome) ∧
    (paperlessngx_lookup_new_documents envC1 ⟨10, []⟩).1.watermark =
      (paperlessngx_lookup_new_documents envC1 ⟨10, []⟩).2.foldl max 10 :=
  c1_continue_after_failure envC1 ⟨10, []⟩ [11, 12, 13] (by decide) rfl (by decide)

/-- Claim C2: with the watermark unset (0) and a successful listing, the poll
downloads nothing and leaves the staging directory unchanged; a nonempty
listing primes the watermark to the maximum candidate id, and an empty
listing leaves it unset (0), so bootstrapping is retried on the next cycle;
moreover any later poll from the resulting state only downloads ids strictly
above the resulting watermark. -/
theorem c2_bootstrap (env : PollEnv) (s : FetchState) (raw : List Nat)
    (h0 : s.watermark = 0) (hl : env.listing = some raw) :
    (paperlessngx_lookup_new_documents env s).2 = [] ∧
    (paperlessngx_lookup_new_documents env s).1.workdir = s.workdir ∧
    (paperlessngx_lookup_new_documents env s).1.watermark =
      (if raw.isEmpty then 0 else listMax raw) ∧
    ∀ env2 : PollEnv,
      ∀ d ∈ (paperlessngx_lookup_new_documents env2
          (paperlessngx_lookup_new_documents env s).1).2,
        (paperlessngx_lookup_new_documents env s).1.watermark < d := by
  by_cases hraw : raw = []
  · subst hraw
    have hred : paperlessngx_lookup_new_documents env s = (s, []) := by
      simp [paperlessngx_lookup_new_documents, hl, h0]
    rw [hred]
    refine ⟨rfl, rfl, by simp [h0], ?_⟩
    intro env2 d hd
    exact (lookup_spec env2 s).2 d hd
  · have hsortne : ¬ (List.insertionSort (· ≤ ·) raw).isEmpty := by
      rw [List.isEmpty_eq_true, sort_eq_nil_iff]
      exact hraw
    have hred : paperlessngx_lookup_new_documents env s =
        ({ s with watermark := listMax raw }, []) := by
      simp only [paperlessngx_lookup_new_documents, hl, if_pos h0, if_neg hsortne,
        lastD_sort_eq_listMax]
    rw [hred]
    have hifne : raw.isEmpty = false := by simpa using hraw
    refine ⟨rfl, rfl, by simp [hifne], ?_⟩
    intro env2 d hd
    exact (lookup_spec env2 _).2 d hd

/-- Witness for claim C2: first listing 5, 9, 12 with the watermark unset
primes the watermark to 12 and downloads nothing. -/
theorem c2_bootstrap_witness :
    (paperlessngx_lookup_new_documents ⟨some [5, 9, 12], fun i => some [i]⟩ ⟨0, []⟩).2 = [] ∧
    (paperlessngx_lookup_new_documents ⟨some [5, 9, 12], fun i => some [i]⟩ ⟨0, []⟩).1.workdir = [] ∧
    (paperlessngx_lookup_new_documents ⟨some [5, 9, 12], fun i => some [i]⟩ ⟨0, []⟩).1.watermark =
      (if ([5, 9, 12] : List Nat).isEmpty then 0 else listMax [5, 9, 12]) ∧
    ∀ env2 : PollEnv,
      ∀ d ∈ (paperlessngx_lookup_new_documents env2
          (paperlessngx_lookup_new_documents ⟨some [5, 9, 12], fun i => some [i]⟩ ⟨0, []⟩).1).2,
        (paperlessngx_lookup_new_documents ⟨some [5, 9, 12], fun i => some [i]⟩ ⟨0, []⟩).1.watermark < d :=
  c2_bootstrap ⟨some [5, 9, 12], fun i => some [i]⟩ ⟨0, []⟩ [5, 9, 12] rfl rfl

/-- Claim C3: starting from an unset watermark, after any sequence of polls
the watermark equals the maximum id successfully downloaded across all polls,
or the value the bootstrap primed it to (the maximum of the first successful
nonempty listing; 0 if the tracker was never primed) when no download ever
succeeded.  The hypothesis states that listed document ids are positive,
which Paperless-ngx guarantees (0 is the watermark's "unset" sentinel). -/
theorem c3_watermark_after_polls (envs : List PollEnv)
    (hpos : allListedPositive envs = true) :
    (runPolls envs ⟨0, []⟩).1.watermark =
      (if (runPolls envs ⟨0, []⟩).2.isEmpty then bootVal envs
       else listMax (runPolls envs ⟨0, []⟩).2) := by
  obtain ⟨h1, h2⟩ := runPolls_unset envs hpos ⟨0, []⟩ rfl
  by_cases he : (runPolls envs ⟨0, []⟩).2 = []
  · rw [h1, he]
    simp
  · rw [h1, if_neg (by simpa using he)]
    have hlt : bootVal envs < listMax (runPolls envs ⟨0, []⟩).2 :=
      h2 _ (listMax_mem he)
    rw [foldl_max_eq_max, Nat.max_eq_right (Nat.le_of_lt hlt)]

/-- Witness for claim C3 at the two-poll bootstrap scenario: listings
5, 9, 12 then 12, 15; the run downloads 15 and ends with watermark 15. -/
theorem c3_watermark_after_polls_witness :
    (runPolls envsC3 ⟨0, []⟩).1.watermark =
      (if (runPolls envsC3 ⟨0, []⟩).2.isEmpty then bootVal envsC3
       else listMax (runPolls envsC3 ⟨0, []⟩).2) :=
  c3_watermark_after_polls envsC3 (by decide)

/-- Claim C4: the watermark `last_downloaded_document_id` never decreases,
neither across a single execution of the fetch stage (bootstrap or download
loop) nor across any sequence of polls of the process lifetime. -/
theorem c4_watermark_monotone :
    (∀ (env : PollEnv) (s : FetchState),
      s.watermark ≤ (paperlessngx_lookup_new_documents env s).1.watermark) ∧
    (∀ (envs : List PollEnv) (s : FetchState),
      s.watermark ≤ (runPolls envs s).1.watermark) :=
  ⟨fun env s => (lookup_spec env s).1, fun envs s => (runPolls_spec envs s).1⟩

/-- Claim C5: in a staging directory with distinct file paths, the forward
stage removes exactly those staged files that match `workdir/*.pdf` and whose
delivery the sink reports as successful; every other file — in particular
every file whose delivery failed — is left in place byte-identically, and no
other state is changed (the result is a filter of the input directory). -/
theorem c5_at_least_once_forwarding (deliver : String → Bool) (fs : List FileEntry)
    (h : (fs.map FileEntry.fullPath).Nodup) :
    send_workdir_to_sevdesk deliver fs =
      fs.filter (fun f => !(isPdfMatch f && deliver f.fullPath)) :=
  send_workdir_eq_filter deliver fs h

/-- Witness for claim C5: of two staged pdfs, delivery succeeds only for
1.pdf; exactly 1.pdf is deleted and 2.pdf stays byte-identical. -/
theorem c5_at_least_once_forwarding_witness :
    send_workdir_to_sevdesk (fun p => p == "workdir/1.pdf")
        [⟨"workdir", "1.pdf", [1]⟩, ⟨"workdir", "2.pdf", [2]⟩] =
      List.filter (fun f => !(isPdfMatch f && (fun p => p == "workdir/1.pdf") f.fullPath))
        [⟨"workdir", "1.pdf", [1]⟩, ⟨"workdir", "2.pdf", [2]⟩] :=
  c5_at_least_once_forwarding (fun p => p == "workdir/1.pdf")
    [⟨"workdir", "1.pdf", [1]⟩, ⟨"workdir", "2.pdf", [2]⟩] (by decide)

/-- Claim C6: when the listing request fails (`paperlessngx_get` catches the
exception and returns `None`), the poll returns with the watermark and the
staging directory unchanged and downloads nothing; the embedding is total, so
no exception propagates to the outer loop. -/
theorem c6_listing_failure_skips_poll (env : PollEnv) (s : FetchState)
    (h : env.listing = none) :
    paperlessngx_lookup_new_documents env s = (s, []) := by
  simp [paperlessngx_lookup_new_documents, h]

/-- Witness for claim C6: a failed listing leaves watermark 7 and a staged
file untouched. -/
theorem c6_listing_failure_skips_poll_witness :
    paperlessngx_lookup_new_documents ⟨none, fun _ => none⟩
        ⟨7, [⟨"workdir", "3.pdf", [3]⟩]⟩ =
      (⟨7, [⟨"workdir", "3.pdf", [3]⟩]⟩, []) :=
  c6_listing_failure_skips_poll ⟨none, fun _ => none⟩ ⟨7, [⟨"workdir", "3.pdf", [3]⟩]⟩ rfl

/-- Claim C7, counterexample to the claim as stated: `os.unlink` is not
wrapped in any `try`, so when deleting a delivered file fails, the exception
escapes the forward stage uncaught (`uncaught = true`) instead of being
logged and tolerated. -/
theorem c7_unlink_failure_counterexample :
    send_workdir_fallible (fun _ => true) (fun _ => false) fsC7 = ⟨fsC7, true⟩ := by
  decide

/-- Claim C7, amended: if deleting a staged file after a confirmed successful
delivery fails, the exception is not caught anywhere in the forward stage —
it propagates out of `send_workdir_to_sevdesk` (terminating the cycle), and
the file itself remains in the staging directory. -/
theorem c7_unlink_failure_propagates (deliver unlinkOk : String → Bool)
    (fs : List FileEntry) (p : String) (hp : p ∈ globPdf fs)
    (hd : deliver p = true) (hu : unlinkOk p = false) :
    (send_workdir_fallible deliver unlinkOk fs).uncaught = true ∧
    ∀ e ∈ fs, e.fullPath = p → e ∈ (send_workdir_fallible deliver unlinkOk fs).fs :=
  forwardGo_unlink_failure deliver unlinkOk hd hu (globPdf fs) fs hp

/-- Witness for the amended claim C7 at a single staged pdf whose delivery
succeeds and whose deletion raises. -/
theorem c7_unlink_failure_propagates_witness :
    (send_workdir_fallible (fun _ => true) (fun _ => false) fsC7).uncaught = true ∧
    ∀ e ∈ fsC7, e.fullPath = "workdir/1.pdf" →
      e ∈ (send_workdir_fallible (fun _ => true) (fun _ => false) fsC7).fs :=
  c7_unlink_failure_propagates (fun _ => true) (fun _ => false) fsC7 "workdir/1.pdf"
    (by decide) rfl rfl

/-- Claim C8, counterexample to the claim as stated: in an environment where
the required variable SMTP_PORT is missing (everything else set), the process
does exit with a nonzero status, but via an unhandled `TypeError` from
`int(os.getenv('SMTP_PORT'))` during module-level config construction — it
does not print which variables are required. -/
theorem c8_missing_smtp_port_counterexample :
    printsRequiredVars (main_startup envC8) = false ∧
    exitsNonZero (main_startup envC8) = true := by
  decide

/-- Claim C8, amended: startup never reaches the polling loop and always
exits with a nonzero status (the validity check requires `sevdesk_token`,
which the constructor never sets), but the required-variables message is
printed exactly when both integer variables SMTP_PORT and RUN_INTERVAL are
present with integer values; when either is missing or malformed, the process
dies with an unhandled error before the check, without printing the message. -/
theorem c8_startup_exit_behavior (env : OSEnv) :
    exitsNonZero (main_startup env) = true ∧
    (printsRequiredVars (main_startup env) = true ↔
      (exceptOk (pyInt? (env "SMTP_PORT")) = true ∧
       exceptOk (pyInt? (env "RUN_INTERVAL")) = true)) := by
  cases h1 : pyInt? (env "SMTP_PORT") with
  | error e1 =>
    have hred : main_startup env = StartupOutcome.unhandledError e1 := by
      simp [main_startup, mkConfig, h1]
    rw [hred]
    simp [exitsNonZero, printsRequiredVars, exceptOk, h1]
  | ok v1 =>
    cases h2 : pyInt? (env "RUN_INTERVAL") with
    | error e2 =>
      have hred : main_startup env = StartupOutcome.unhandledError e2 := by
        simp [main_startup, mkConfig, h1, h2]
      rw [hred]
      simp [exitsNonZero, printsRequiredVars, exceptOk, h1, h2]
    | ok v2 =>
      have hred : main_startup env = StartupOutcome.usageExit := by
        simp [main_startup, mkConfig, h1, h2, Config.is_valid]
      rw [hred]
      simp [exitsNonZero, printsRequiredVars, exceptOk, h1, h2]

/-- Claim C9 concerns a code bug: with RUN_INTERVAL unset (and everything
else configured), `int(os.getenv('RUN_INTERVAL'))` raises `TypeError` during
module-level config construction, so the documented default of 300 seconds is
never applied and startup crashes instead of succeeding; the `or 300` default
in the same expression only ever fires for the explicit value 0. -/
theorem c9_run_interval_crash :
    mkConfig envC9 = Except.error "TypeError" ∧
    main_startup envC9 = StartupOutcome.unhandledError "TypeError" ∧
    pyOrInt 0 300 = 300 :=
  ⟨by rfl, by decide, by decide⟩

/-- Claim C10: the forward stage enumerates only files matching
`workdir/*.pdf`; a staged file that does not match the pattern is never
passed to the sink (its path is not in the globbed list, which is exactly the
set of paths the loop delivers) and survives the stage untouched. -/
theorem c10_non_pdf_untouched (deliver : String → Bool) (fs : List FileEntry)
    (f : FileEntry) (h : (fs.map FileEntry.fullPath).Nodup) (hf : f ∈ fs)
    (hnp : isPdfMatch f = false) :
    f.fullPath ∉ globPdf fs ∧ f ∈ send_workdir_to_sevdesk deliver fs := by
  constructor
  · intro hmem
    have hcontra := (mem_globPdf_iff h hf).mp hmem
    rw [hnp] at hcontra
    cases hcontra
  · rw [send_workdir_eq_filter deliver fs h]
    exact List.mem_filter.mpr ⟨hf, by simp [hnp]⟩

/-- Witness for claim C10: a text file in the staging directory is neither
globbed nor removed, even with a sink that accepts everything. -/
theorem c10_non_pdf_untouched_witness :
    (⟨"workdir", "notes.txt", [7]⟩ : FileEntry).fullPath ∉ globPdf
        [⟨"workdir", "notes.txt", [7]⟩, ⟨"workdir", "9.pdf", [9]⟩] ∧
    (⟨"workdir", "notes.txt", [7]⟩ : FileEntry) ∈
      send_workdir_to_sevdesk (fun _ => true)
        [⟨"workdir", "notes.txt", [7]⟩, ⟨"workdir", "9.pdf", [9]⟩] :=
  c10_non_pdf_untouched (fun _ => true)
    [⟨"workdir", "notes.txt", [7]⟩, ⟨"workdir", "9.pdf", [9]⟩]
    ⟨"workdir", "notes.txt", [7]⟩ (by decide) (by decide) (by decide)

end PaperlessSevdesk
